import Mathlib

/-!
Verification of the extraction-and-validation core of the amazon-ebook-scraper
repository: a shallow embedding of the Result algebra, the value-object
factories (URL / title / price), the product assembly constructor, the
retry-with-backoff HTTP fetch loop, the selector-based HTML field extraction,
and the scrape orchestrator, together with theorems settling the specified
properties.

Strings are modelled as Lean strings (sequences of Unicode scalar values);
JavaScript string lengths count UTF-16 code units, which agrees with the
code-point count on the basic multilingual plane inputs used throughout.
Whitespace is modelled by Char.isWhitespace, matching the JavaScript
whitespace class on the ASCII whitespace characters.
-/

/-! ## Result algebra (domain/result.ts) -/

/-- Result type for railway-oriented programming: Success carries data,
Failure carries an error. -/
inductive Result (T : Type) (E : Type) where
  | ok (data : T)
  | err (error : E)
deriving DecidableEq

/-- The result.success discriminant. -/
def Result.isOkB {T E : Type} : Result T E → Bool
  | .ok _ => true
  | .err _ => false

/-! ## Character-list string utilities (JavaScript string primitives) -/

/-- Leading-whitespace removal, one half of String.prototype.trim. -/
def dropLeadWS (cs : List Char) : List Char :=
  cs.dropWhile Char.isWhitespace

/-- Trailing-whitespace removal, the other half of String.prototype.trim. -/
def dropTrailWS (cs : List Char) : List Char :=
  (cs.reverse.dropWhile Char.isWhitespace).reverse

/-- JavaScript String.prototype.trim on character lists. -/
def trimCL (cs : List Char) : List Char :=
  dropTrailWS (dropLeadWS cs)

/-- JavaScript String.prototype.trim. -/
def jsTrim (s : String) : String :=
  ⟨trimCL s.data⟩

/-- Does the character list start with the given pattern? -/
def startsWith : List Char → List Char → Bool
  | _, [] => true
  | [], _ :: _ => false
  | c :: cs, p :: ps => c == p && startsWith cs ps

/-- Occurrence of pat anywhere in s: JavaScript String.prototype.includes. -/
def containsSub : List Char → List Char → Bool
  | s, pat =>
    if startsWith s pat then true
    else match s with
      | [] => false
      | _ :: t => containsSub t pat

/-- JavaScript String.prototype.includes. -/
def strIncludes (s pat : String) : Bool :=
  containsSub s.data pat.data

/-- Does the string contain an ASCII digit (the regex class backslash-d)? -/
def hasDigitCL (cs : List Char) : Bool :=
  cs.any Char.isDigit

/-- Whitespace-run collapsing: the replace of every maximal whitespace run by
a single space, as in input.replace of the whitespace-run regex by a space.
The flag records whether the previous character belonged to a run whose
space was already emitted. -/
def collapseAux : Bool → List Char → List Char
  | _, [] => []
  | prevWS, c :: rest =>
    if c.isWhitespace then
      if prevWS then collapseAux true rest
      else ' ' :: collapseAux true rest
    else c :: collapseAux false rest

/-- Replace every whitespace run by one space, then trim: the normalization
performed by createProductTitle. -/
def normalizeWS (s : String) : String :=
  ⟨trimCL (collapseAux false s.data)⟩

/-- Auxiliary predicate: the head of the list, if any, does not satisfy the
given predicate. Used to state the trimming and collapsing invariants. -/
def headNotP (p : Char → Bool) : List Char → Bool
  | [] => true
  | c :: _ => !p c

/-- Auxiliary invariant of whitespace-collapsed text: every whitespace
character is a plain space and no two whitespace characters are adjacent. -/
def canonWS : List Char → Bool
  | [] => true
  | c :: rest =>
    ((!c.isWhitespace) || (c == ' ' && headNotP Char.isWhitespace rest))
      && canonWS rest

/-! ## URL parsing model

The source calls the platform URL constructor (the WHATWG URL parser), an
external collaborator of the core. It is modelled here for absolute URLs of
the shape scheme://host/path (query and fragment stripped from the path,
scheme and host lowercased, empty path normalized to a single slash), which
covers the product URLs the validator is applied to. -/

/-- Components of a parsed URL that the validator inspects. -/
structure URLParts where
  protocol : String
  hostname : String
  pathname : String
deriving DecidableEq

/-- Split a character list at the first occurrence of pat, returning the
parts before and after it. -/
def breakOnSub (pat : List Char) : List Char → Option (List Char × List Char)
  | [] => if startsWith [] pat then some ([], []) else none
  | c :: t =>
    if startsWith (c :: t) pat then some ([], (c :: t).drop pat.length)
    else match breakOnSub pat t with
      | some (a, b) => some (c :: a, b)
      | none => none

/-- URL scheme characters: letters, digits, plus, minus, dot. -/
def schemeChar (c : Char) : Bool :=
  c.isAlpha || c.isDigit || c == '+' || c == '-' || c == '.'

/-- Model of the WHATWG URL parser restricted to scheme://host/path URLs. -/
def parseURL (s : String) : Option URLParts :=
  match breakOnSub "://".data s.data with
  | none => none
  | some (scheme, rest) =>
    match scheme with
    | [] => none
    | c0 :: _ =>
      if c0.isAlpha && scheme.all schemeChar then
        let host := rest.takeWhile (fun c => c != '/' && c != '?' && c != '#')
        let after := rest.drop host.length
        if host.isEmpty then none
        else some {
          protocol := ⟨scheme.map Char.toLower ++ [':']⟩
          hostname := ⟨host.map Char.toLower⟩
          pathname := ⟨match after with
            | [] => ['/']
            | c :: _ =>
              if c == '/' then after.takeWhile (fun c => c != '?' && c != '#')
              else ['/']⟩ }
      else none

/-! ## Value objects (domain/value-objects.ts) -/

/-- Domain errors for value object validation. -/
inductive ValidationError where
  | InvalidAmazonURL (message url : String)
  | InvalidProductTitle (message title : String)
  | InvalidProductPrice (message price : String)
deriving DecidableEq

/-- The human-readable message of a validation error. -/
def ValidationError.message : ValidationError → String
  | .InvalidAmazonURL m _ => m
  | .InvalidProductTitle m _ => m
  | .InvalidProductPrice m _ => m

/-- createAmazonURL: trim, reject empty input, parse as URL, require the
https scheme, a hostname containing amazon.co.jp, and a pathname containing
a /dp/ or /gp/product/ segment; on success return the trimmed string. -/
def createAmazonURL (input : String) : Result String ValidationError :=
  let trimmed := jsTrim input
  if trimmed = "" then
    .err (.InvalidAmazonURL "URL cannot be empty" input)
  else
    match parseURL trimmed with
    | none => .err (.InvalidAmazonURL "Invalid URL format" input)
    | some url =>
      if url.protocol ≠ "https:" then
        .err (.InvalidAmazonURL "URL must use HTTPS protocol" input)
      else if ¬ (strIncludes url.hostname "amazon.co.jp" = true) then
        .err (.InvalidAmazonURL "URL must be from amazon.co.jp domain" input)
      else if ¬ (strIncludes url.pathname "/dp/" = true
          ∨ strIncludes url.pathname "/gp/product/" = true) then
        .err (.InvalidAmazonURL "URL must be a valid Amazon product URL" input)
      else
        .ok trimmed

/-- The case-insensitive scan for injection markers in createProductTitle. -/
def hasUnsafeContent (s : String) : Bool :=
  let low : String := ⟨s.data.map Char.toLower⟩
  strIncludes low "<script" || strIncludes low "javascript:" ||
    strIncludes low "data:" || strIncludes low "vbscript:"

/-- createProductTitle: collapse whitespace runs and trim, reject empty,
too-short (less than 3), too-long (more than 500) and unsafe content; on
success return the normalized string. -/
def createProductTitle (input : String) : Result String ValidationError :=
  let normalized := normalizeWS input
  if normalized = "" then
    .err (.InvalidProductTitle "Product title cannot be empty" input)
  else if normalized.length < 3 then
    .err (.InvalidProductTitle
      "Product title must be at least 3 characters long" input)
  else if normalized.length > 500 then
    .err (.InvalidProductTitle
      "Product title cannot exceed 500 characters" input)
  else if hasUnsafeContent normalized then
    .err (.InvalidProductTitle
      "Product title contains potentially malicious content" input)
  else
    .ok normalized

/-! ## The price pattern

The source tests the trimmed price against the regular expression with an
optional yen sign, one to three digits, zero or more comma-separated groups
of exactly three digits, and an optional yen sign or yen-kanji suffix. The
regex test method performs an unanchored search: a match may start at any
position and need not extend to the end. The matcher below returns, for each
sub-pattern, the list of possible remainders of the input after consuming a
match of that sub-pattern. -/

/-- Full-width or half-width yen sign, the character class of the pattern. -/
def isYenChar (c : Char) : Bool := c == '￥' || c == '¥'

/-- Remainders after the optional leading yen sign. -/
def optYenRem (cs : List Char) : List (List Char) :=
  cs :: (match cs with
    | c :: rest => if isYenChar c then [rest] else []
    | [] => [])

/-- Remainders after one ASCII digit. -/
def digitRem (cs : List Char) : List (List Char) :=
  match cs with
  | c :: rest => if c.isDigit then [rest] else []
  | [] => []

/-- Remainders after one, two or three ASCII digits. -/
def digits13Rem (cs : List Char) : List (List Char) :=
  digitRem cs ++ ((digitRem cs).flatMap digitRem)
    ++ (((digitRem cs).flatMap digitRem).flatMap digitRem)

/-- Remainders after a comma followed by exactly three digits. -/
def commaGroupRem (cs : List Char) : List (List Char) :=
  match cs with
  | c :: rest =>
    if c == ',' then
      (digitRem rest).flatMap (fun r1 => (digitRem r1).flatMap digitRem)
    else []
  | [] => []

/-- Remainders after zero or more comma-digit groups, fuelled: each group
consumes four characters, so the input length is sufficient fuel. -/
def starGroupRemFuel : Nat → List Char → List (List Char)
  | 0, cs => [cs]
  | fuel + 1, cs => cs :: (commaGroupRem cs).flatMap (starGroupRemFuel fuel)

/-- Remainders after zero or more comma-digit groups. -/
def starGroupRem (cs : List Char) : List (List Char) :=
  starGroupRemFuel cs.length cs

/-- Remainders after the optional trailing yen sign or yen kanji. -/
def optPriceSuffixRem (cs : List Char) : List (List Char) :=
  cs :: (match cs with
    | c :: rest => if isYenChar c || c == '円' then [rest] else []
    | [] => [])

/-- All remainders of a match of the whole price pattern starting at the
head of the input. -/
def priceRemainders (cs : List Char) : List (List Char) :=
  (((optYenRem cs).flatMap digits13Rem).flatMap starGroupRem).flatMap
    optPriceSuffixRem

/-- Does a match of the price pattern start at the head of the input? -/
def priceMatchAt (cs : List Char) : Bool :=
  !(priceRemainders cs).isEmpty

/-- The unanchored regex test of the source: does a match of the price
pattern start at any position of the input? -/
def pricePatternTest : List Char → Bool
  | [] => priceMatchAt []
  | c :: rest => priceMatchAt (c :: rest) || pricePatternTest rest

/-- Modelled from the spec: the anchored reading of the price pattern, under
which the whole input must be one optional currency symbol, one to three
leading digits, optional comma-separated three-digit groups and an optional
trailing currency symbol or yen suffix. Used only to compare the spec's
words with the unanchored search the source performs. -/
def pricePatternFull (cs : List Char) : Bool :=
  (priceRemainders cs).any List.isEmpty

/-- createProductPrice: trim, reject empty, reject input with neither yen
sign nor digit, reject input failing the (unanchored) price pattern test,
reject input longer than 50; on success return the trimmed string. -/
def createProductPrice (input : String) : Result String ValidationError :=
  let trimmed := jsTrim input
  if trimmed = "" then
    .err (.InvalidProductPrice "Product price cannot be empty" input)
  else
    let hasYenSymbol := strIncludes trimmed "￥" || strIncludes trimmed "¥"
    let hasDigits := hasDigitCL trimmed.data
    if ¬ (hasYenSymbol = true ∨ hasDigits = true) then
      .err (.InvalidProductPrice
        "Product price must contain yen symbol or digits" input)
    else if ¬ (pricePatternTest trimmed.data = true) then
      .err (.InvalidProductPrice "Product price format is invalid" input)
    else if trimmed.length > 50 then
      .err (.InvalidProductPrice
        "Product price cannot exceed 50 characters" input)
    else
      .ok trimmed

/-! ## Product assembly (domain/product.ts) -/

/-- Domain model for a scraped Amazon product: validated url, title and
price strings plus a Unix timestamp in seconds. -/
structure Product where
  url : String
  title : String
  price : String
  timestamp : Int
deriving DecidableEq

/-- Product creation error: either a single validation error or the
aggregated failure carrying the list of all validation errors. -/
inductive ProductCreationError where
  | Validation (e : ValidationError)
  | ProductCreationFailed (message : String) (details : List ValidationError)
deriving DecidableEq

/-- The human-readable message of a product creation error. -/
def ProductCreationError.message : ProductCreationError → String
  | .Validation e => e.message
  | .ProductCreationFailed m _ => m

/-- The error list contributed by one validation result. -/
def errListOf {T : Type} : Result T ValidationError → List ValidationError
  | .ok _ => []
  | .err e => [e]

/-- createProduct: validate all three components, collect every validation
error in url, title, price order; on any error return the aggregated
ProductCreationFailed, otherwise build the product with the supplied
timestamp or, when absent, the current time (the now argument models the
clock read Date.now divided by 1000 and floored). -/
def createProduct (url title price : String) (timestamp : Option Int)
    (now : Int) : Result Product ProductCreationError :=
  let urlResult := createAmazonURL url
  let titleResult := createProductTitle title
  let priceResult := createProductPrice price
  let errors := errListOf urlResult ++ errListOf titleResult
    ++ errListOf priceResult
  match urlResult, titleResult, priceResult with
  | .ok u, .ok t, .ok p =>
    .ok { url := u, title := t, price := p, timestamp := timestamp.getD now }
  | _, _, _ =>
    .err (.ProductCreationFailed
      ("Failed to create product: " ++ toString errors.length
        ++ " validation error(s)") errors)

/-! ## HTTP client and retry loop (domain/http-client.ts) -/

/-- HTTP errors in domain terms. The cause fields of the source hold
arbitrary thrown values and are omitted. -/
inductive HttpError where
  | NetworkError (message : String)
  | TimeoutError (message : String) (timeout : Nat)
  | StatusError (message : String) (statusCode : Nat) (url : String)
  | ParseError (message : String)
  | UnknownError (message : String)
deriving DecidableEq

/-- The type tag of an HTTP error, as the string the source switches on. -/
def HttpError.typeName : HttpError → String
  | .NetworkError _ => "NetworkError"
  | .TimeoutError _ _ => "TimeoutError"
  | .StatusError _ _ _ => "StatusError"
  | .ParseError _ => "ParseError"
  | .UnknownError _ => "UnknownError"

/-- HTTP response wrapper. -/
structure HttpResponse where
  body : String
  statusCode : Nat
  url : String
deriving DecidableEq

/-- HTTP client configuration. -/
structure HttpClientConfig where
  timeout : Nat
  userAgent : String
  maxRetries : Nat
  retryDelay : Nat
deriving DecidableEq

/-- Default HTTP client configuration. -/
def DEFAULT_CONFIG : HttpClientConfig :=
  { timeout := 10000
    userAgent := "Mozilla/5.0 (Windows NT 10.0; Win64; x64) AppleWebKit/537.36 (KHTML, like Gecko) Chrome/91.0.4472.124 Safari/537.36"
    maxRetries := 3
    retryDelay := 1000 }

/-- The client-error guard of the retry loop: a failure whose error is a
StatusError with status code in the 400 to 499 range. -/
def is4xxClientError {T : Type} : Result T HttpError → Bool
  | .err (.StatusError _ code _) => 400 ≤ code && code < 500
  | _ => false

/-- isRetryableError: network and timeout errors are retryable, server
errors with status at least 500 are retryable, client status errors, parse
errors and unknown errors are not. -/
def isRetryableError : HttpError → Bool
  | .NetworkError _ => true
  | .TimeoutError _ _ => true
  | .StatusError _ code _ => 500 ≤ code
  | .ParseError _ => false
  | .UnknownError _ => false

/-- retryWithBackoff: invoke the operation; return its result when it
succeeded or the attempt counter has reached maxRetries or the failure is a
4xx status error; otherwise wait the exponential backoff delay, the minimum
of baseDelay times two to the attempt and 30000 milliseconds, and recurse
with the counter increased. The operation is modelled as a function from
the attempt index to the result of that invocation; the returned triple
carries the final result, the total number of invocations and the list of
backoff delays waited. -/
def retryWithBackoff {T : Type} (operation : Nat → Result T HttpError)
    (maxRetries baseDelay currentAttempt : Nat) :
    Result T HttpError × Nat × List Nat :=
  let result := operation currentAttempt
  if h1 : result.isOkB = true ∨ maxRetries ≤ currentAttempt then
    (result, 1, [])
  else if is4xxClientError result = true then
    (result, 1, [])
  else
    let r := retryWithBackoff operation maxRetries baseDelay
      (currentAttempt + 1)
    (r.1, r.2.1 + 1, min (baseDelay * 2 ^ currentAttempt) 30000 :: r.2.2)
termination_by maxRetries - currentAttempt
decreasing_by
  push_neg at h1
  omega

/-- HttpClient.get: run the single-request operation through the retry loop
with the configured maxRetries and retryDelay, starting at attempt zero. -/
def httpClientGet {T : Type} (operation : Nat → Result T HttpError)
    (config : HttpClientConfig) : Result T HttpError × Nat × List Nat :=
  retryWithBackoff operation config.maxRetries config.retryDelay 0

/-! ## HTML field extraction (domain/html-parser.ts)

The cheerio document is an external collaborator; it is modelled as a
function from a selector string to the list of the text contents of the
elements it matches, in document order. The cheerio text method on a
selection concatenates the text of every matched element; the first method
restricts the selection to its first element, whose text is the empty
string when the selection is empty. -/

/-- The prioritized title selector list. -/
def TITLE_SELECTORS : List String :=
  ["#productTitle", "span#productTitle", "h1.a-size-large", "h1 span",
   ".product-title"]

/-- The prioritized price selector list. -/
def PRICE_SELECTORS : List String :=
  [".a-price-current .a-offscreen", ".a-price .a-offscreen", ".a-price-whole",
   ".a-offscreen", "span.a-price", ".kindle-price", ".a-color-price"]

/-- findTextBySelectors: for each selector in order, take the trimmed
concatenated text of all elements it matches, and return the first
non-empty outcome. -/
def findTextBySelectors (doc : String → List String)
    (selectors : List String) : Option String :=
  (selectors.map (fun sel => jsTrim (String.join (doc sel)))).find?
    (fun text => text.length > 0)

/-- Modelled from the spec: the extraction contract of the specification,
which queries the first matching element of each selector and takes its
trimmed text content, returning the first accepted non-empty result. Used
only to compare the spec's words with the source's concatenating title
extraction. -/
def findTextBySelectorsSpec (doc : String → List String)
    (selectors : List String) : Option String :=
  (selectors.map (fun sel => jsTrim ((doc sel).head?.getD ""))).find?
    (fun text => text.length > 0)

/-- The price acceptance predicate: non-empty and containing a yen sign or
a digit. -/
def isValidPriceText (text : String) : Bool :=
  text.length > 0 && (strIncludes text "￥" || strIncludes text "¥"
    || hasDigitCL text.data)

/-- findPriceBySelectors: for each selector in order, take the trimmed text
of the first element it matches, and return the first outcome accepted by
the price predicate. -/
def findPriceBySelectors (doc : String → List String)
    (selectors : List String) : Option String :=
  (selectors.map (fun sel => jsTrim ((doc sel).head?.getD ""))).find?
    isValidPriceText

/-! ## Scrape orchestrator (domain/scraper-service.ts) -/

/-- Extraction errors of the parsing stage. Modelled from the spec: the
html-parser draft that defines the ParsingError taxonomy imported by the
scraper service is not among the provided sources; the spec gives the
closed set HtmlParseError and ElementNotFound carrying the selectors
tried. -/
inductive ParsingError where
  | HtmlParseError (message : String)
  | ElementNotFound (message : String) (selectorsTried : List String)
deriving DecidableEq

/-- The type tag of a parsing error. -/
def ParsingError.typeName : ParsingError → String
  | .HtmlParseError _ => "HtmlParseError"
  | .ElementNotFound _ _ => "ElementNotFound"

/-- Parsed raw product data: the extracted title and price strings. -/
structure ParsedProductData where
  title : String
  price : String
deriving DecidableEq

/-- Scraper service errors. -/
inductive ScraperError where
  | UrlValidationError (message url : String)
  | HttpFailure (message : String) (httpError : HttpError)
  | ParsingFailure (message : String) (parsingError : ParsingError)
  | ProductCreationFailure (message : String) (cause : ProductCreationError)
  | ServiceError (message : String)
deriving DecidableEq

/-- ScraperService.scrapeProduct: validate the URL and on failure return the
UrlValidationError immediately; otherwise fetch the page (the get argument
models the HTTP client on the validated URL), parse the body (the parse
argument models parseProductData), and assemble the product. The second
component counts the HTTP client invocations performed. -/
def scrapeProduct (get : String → Result HttpResponse HttpError)
    (parse : String → Result ParsedProductData ParsingError)
    (now : Int) (url : String) : Result Product ScraperError × Nat :=
  match createAmazonURL url with
  | .err e =>
    (.err (.UrlValidationError ("Invalid Amazon URL: " ++ e.message) url), 0)
  | .ok validUrl =>
    match get validUrl with
    | .err he =>
      (.err (.HttpFailure ("Failed to fetch page: " ++ he.typeName) he), 1)
    | .ok resp =>
      match parse resp.body with
      | .err pe =>
        (.err (.ParsingFailure
          ("Failed to parse product data: " ++ pe.typeName) pe), 1)
      | .ok pd =>
        match createProduct url pd.title pd.price none now with
        | .err ce =>
          (.err (.ProductCreationFailure
            ("Failed to create product: " ++ ce.message) ce), 1)
        | .ok product => (.ok product, 1)

/-! ## Batch scraping traces

Events of a batch run, used to state the ordering discipline of the two
batch implementations. The traces model the JavaScript control flow: an
async function runs synchronously up to its first await, so mapping
scrapeProduct over the URL list inside Promise.all starts every scrape
(each runs to its first await, the network fetch) before any of them
completes, while the for-await loop of the pipeline finishes each URL and
waits the inter-request delay before starting the next. -/

inductive BatchEvent where
  | scrapeStart (i : Nat)
  | scrapeFinish (i : Nat)
  | interDelay (ms : Nat)
deriving DecidableEq

/-- Event trace of ScraperService.scrapeMultipleProducts, which evaluates
Promise.all of the mapped scrapes: every scrape starts before any
completes, and no inter-request delay is performed. -/
def scrapeMultipleProductsTrace (urls : List String) : List BatchEvent :=
  ((List.range urls.length).map BatchEvent.scrapeStart)
    ++ ((List.range urls.length).map BatchEvent.scrapeFinish)

/-- Event trace of runBatchScrapingPipeline, which awaits each URL's
pipeline run and then a 1000 millisecond delay before the next URL. -/
def runBatchScrapingPipelineTrace (urls : List String) : List BatchEvent :=
  (List.range urls.length).flatMap
    (fun i => [BatchEvent.scrapeStart i, BatchEvent.scrapeFinish i,
      BatchEvent.interDelay 1000])

/-! ## Concrete fixtures used by counterexamples and witnesses -/

/-- A transport that fails with a transient network error on the first
invocation and succeeds from the second invocation on. -/
def opFailOnce : Nat → Result HttpResponse HttpError :=
  fun n =>
    if n = 0 then .err (.NetworkError "Network error: connect ECONNREFUSED")
    else .ok
      { body := "<html>ok</html>"
        statusCode := 200
        url := "https://www.amazon.co.jp/dp/B07ABCDEFG" }

/-- A transport that always fails with a 404 status error. -/
def op404 : Nat → Result HttpResponse HttpError :=
  fun _ => .err (.StatusError "HTTP 404: Not Found" 404
    "https://www.amazon.co.jp/dp/B07ABCDEFG")

/-- A transport that always fails with a parse error. -/
def opParseErr : Nat → Result HttpResponse HttpError :=
  fun _ => .err (.ParseError "Parse error: bad body")

/-- A document with two elements carrying the duplicated productTitle id,
as produced by the HTML of two divs with that id: the id selector matches
both, the span-qualified variant matches neither. -/
def docTwoTitles : String → List String :=
  fun sel => if sel = "#productTitle" then ["A", "B"] else []

/-- A document whose only title match is the lowest-priority selector. -/
def docLowTitle : String → List String :=
  fun sel => if sel = ".product-title" then ["Low Title"] else []

/-- A stub parse function that always succeeds. -/
def parseStub : String → Result ParsedProductData ParsingError :=
  fun _ => .ok { title := "Test Book", price := "￥1,000" }

/-- A stub HTTP get that always succeeds. -/
def getStub : String → Result HttpResponse HttpError :=
  fun u => .ok { body := "<html>ok</html>", statusCode := 200, url := u }

/-- A transient failure in the sense of the retry policy: a failure whose
error is a connection-level network error or a timeout. -/
def isTransientFailure {T : Type} : Result T HttpError → Bool
  | .err (.NetworkError _) => true
  | .err (.TimeoutError _ _) => true
  | _ => false

/-! ## Lemmas about the retry loop -/

lemma retryWithBackoff_stop {T : Type} (op : Nat → Result T HttpError)
    (mr bd ca : Nat)
    (h : (op ca).isOkB = true ∨ mr ≤ ca ∨ is4xxClientError (op ca) = true) :
    retryWithBackoff op mr bd ca = (op ca, 1, []) := by
  rw [retryWithBackoff]
  rcases h with h | h | h
  · simp [h]
  · simp [h]
  · by_cases h1 : (op ca).isOkB = true ∨ mr ≤ ca
    · simp [h1]
    · simp [h1, h]

lemma retryWithBackoff_step {T : Type} (op : Nat → Result T HttpError)
    (mr bd ca : Nat)
    (hok : (op ca).isOkB = false) (h4 : is4xxClientError (op ca) = false)
    (hlt : ca < mr) :
    retryWithBackoff op mr bd ca =
      ((retryWithBackoff op mr bd (ca + 1)).1,
       (retryWithBackoff op mr bd (ca + 1)).2.1 + 1,
       min (bd * 2 ^ ca) 30000 :: (retryWithBackoff op mr bd (ca + 1)).2.2) := by
  rw [retryWithBackoff]
  have h1 : ¬ ((op ca).isOkB = true ∨ mr ≤ ca) := by
    rw [hok]
    simp
    omega
  simp [h1, h4]

lemma retryWithBackoff_count_le {T : Type} (op : Nat → Result T HttpError)
    (mr bd : Nat) :
    ∀ (gas ca : Nat), mr - ca ≤ gas →
      (retryWithBackoff op mr bd ca).2.1 ≤ mr - ca + 1 := by
  intro gas
  induction gas with
  | zero =>
    intro ca h
    have hca : mr ≤ ca := by omega
    rw [retryWithBackoff_stop op mr bd ca (Or.inr (Or.inl hca))]
    simp
  | succ g ih =>
    intro ca h
    by_cases hstop : (op ca).isOkB = true ∨ mr ≤ ca
        ∨ is4xxClientError (op ca) = true
    · rw [retryWithBackoff_stop op mr bd ca hstop]
      simp
    · push_neg at hstop
      obtain ⟨hok, hca, h4⟩ := hstop
      have hok' : (op ca).isOkB = false := by
        revert hok; cases (op ca).isOkB <;> simp
      have h4' : is4xxClientError (op ca) = false := by
        revert h4; cases is4xxClientError (op ca) <;> simp
      rw [retryWithBackoff_step op mr bd ca hok' h4' (by omega)]
      have := ih (ca + 1) (by omega)
      simp
      omega

lemma retryWithBackoff_run {T : Type} (op : Nat → Result T HttpError)
    (mr bd : Nat) :
    ∀ (k ca : Nat), ca + k ≤ mr →
      (∀ i, i < k → (op (ca + i)).isOkB = false
        ∧ is4xxClientError (op (ca + i)) = false) →
      ((op (ca + k)).isOkB = true ∨ is4xxClientError (op (ca + k)) = true
        ∨ ca + k = mr) →
      (retryWithBackoff op mr bd ca).1 = op (ca + k)
        ∧ (retryWithBackoff op mr bd ca).2.1 = k + 1 := by
  intro k
  induction k with
  | zero =>
    intro ca hle hcont hstop
    have h : (op ca).isOkB = true ∨ mr ≤ ca
        ∨ is4xxClientError (op ca) = true := by
      rcases hstop with h | h | h
      · exact Or.inl (by simpa using h)
      · exact Or.inr (Or.inr (by simpa using h))
      · exact Or.inr (Or.inl (by omega))
    rw [retryWithBackoff_stop op mr bd ca h]
    simp
  | succ k ih =>
    intro ca hle hcont hstop
    have h0 := hcont 0 (by omega)
    simp only [Nat.add_zero] at h0
    rw [retryWithBackoff_step op mr bd ca h0.1 h0.2 (by omega)]
    have hcont' : ∀ i, i < k → (op (ca + 1 + i)).isOkB = false
        ∧ is4xxClientError (op (ca + 1 + i)) = false := by
      intro i hi
      have := hcont (i + 1) (by omega)
      have harg : ca + (i + 1) = ca + 1 + i := by omega
      rwa [harg] at this
    have hstop' : (op (ca + 1 + k)).isOkB = true
        ∨ is4xxClientError (op (ca + 1 + k)) = true ∨ ca + 1 + k = mr := by
      have harg : ca + (k + 1) = ca + 1 + k := by omega
      rwa [harg] at hstop
    have := ih (ca + 1) (by omega) hcont' hstop'
    have harg : ca + 1 + k = ca + (k + 1) := by omega
    rw [harg] at this
    exact ⟨this.1, by rw [this.2]⟩

lemma transient_continues {T : Type} (r : Result T HttpError)
    (h : isTransientFailure r = true) :
    r.isOkB = false ∧ is4xxClientError r = false := by
  cases r with
  | ok d => simp [isTransientFailure] at h
  | err e => cases e <;> simp_all [isTransientFailure, Result.isOkB,
      is4xxClientError]

/-- C1 (counterexample): the claim bounds the transport invocations by
maxRetries and requires a Failure once the transport has failed transiently
maxRetries times in a row. With maxRetries one and a transport that fails
with a transient network error on its first invocation and succeeds on its
second, the retry loop invokes the transport twice, exceeding the claimed
bound of one, and returns Success rather than the claimed Failure. -/
theorem retryWithBackoff_exceeds_claimed_bound :
    isTransientFailure (opFailOnce 0) = true
    ∧ (retryWithBackoff opFailOnce 1 1000 0).2.1 = 2
    ∧ ¬ (retryWithBackoff opFailOnce 1 1000 0).2.1 ≤ 1
    ∧ (retryWithBackoff opFailOnce 1 1000 0).1.isOkB = true := by
  rw [retryWithBackoff, retryWithBackoff]
  refine ⟨by decide, ?_⟩
  simp [opFailOnce, Result.isOkB, is4xxClientError]

/-- C1 (amended): the retry loop invokes the transport at most
maxRetries + 1 times in total (the initial attempt plus up to maxRetries
retries). If the transport fails with a transient network or timeout error
on the first maxRetries - 1 invocations and succeeds on the next, the fetch
returns Success and the transport was invoked exactly maxRetries times; if
it fails transiently on maxRetries + 1 consecutive invocations, the fetch
returns Failure carrying the last observed error after exactly
maxRetries + 1 invocations. -/
theorem retryWithBackoff_invocation_bounds
    (op : Nat → Result HttpResponse HttpError) (mr bd : Nat) :
    ((retryWithBackoff op mr bd 0).2.1 ≤ mr + 1)
    ∧ (∀ resp : HttpResponse, 1 ≤ mr →
        (∀ i, i < mr - 1 → isTransientFailure (op i) = true) →
        op (mr - 1) = .ok resp →
        (retryWithBackoff op mr bd 0).1 = .ok resp
          ∧ (retryWithBackoff op mr bd 0).2.1 = mr)
    ∧ ((∀ i, i ≤ mr → isTransientFailure (op i) = true) →
        (retryWithBackoff op mr bd 0).1 = op mr
          ∧ (retryWithBackoff op mr bd 0).2.1 = mr + 1
          ∧ (retryWithBackoff op mr bd 0).1.isOkB = false) := by
  refine ⟨?_, ?_, ?_⟩
  · have := retryWithBackoff_count_le op mr bd mr 0 (by omega)
    omega
  · intro resp hmr hfail hsucc
    have hrun := retryWithBackoff_run op mr bd (mr - 1) 0 (by omega)
      (fun i hi => transient_continues _ (by
        have : i < mr - 1 := by omega
        simpa using hfail i this))
      (by
        simp only [Nat.zero_add]
        rw [hsucc]
        exact Or.inl rfl)
    simp only [Nat.zero_add] at hrun
    rw [hsucc] at hrun
    exact ⟨hrun.1, by omega⟩
  · intro hfail
    have hrun := retryWithBackoff_run op mr bd mr 0 (by omega)
      (fun i hi => transient_continues _ (by
        simpa using hfail i (by omega)))
      (by simp)
    simp only [Nat.zero_add] at hrun
    refine ⟨hrun.1, by omega, ?_⟩
    rw [hrun.1]
    exact (transient_continues _ (hfail mr (by omega))).1

/-- C1 (witness): with maxRetries two and a transport failing transiently
on the first invocation and succeeding on the second, the fetch returns
Success after exactly two transport invocations. -/
theorem retryWithBackoff_invocation_bounds_witness :
    (retryWithBackoff opFailOnce 2 1000 0).1 =
      .ok { body := "<html>ok</html>", statusCode := 200,
            url := "https://www.amazon.co.jp/dp/B07ABCDEFG" }
    ∧ (retryWithBackoff opFailOnce 2 1000 0).2.1 = 2 :=
  (retryWithBackoff_invocation_bounds opFailOnce 2 1000).2.1
    { body := "<html>ok</html>", statusCode := 200,
      url := "https://www.amazon.co.jp/dp/B07ABCDEFG" }
    (by decide) (by decide) (by decide)

/-- C3: a fetch whose transport fails with a 4xx status error on the first
invocation performs exactly one transport invocation and returns that
StatusError as the failure immediately, with no retry and no backoff
delay. -/
theorem retryWithBackoff_no_retry_on_4xx
    (op : Nat → Result HttpResponse HttpError) (mr bd : Nat)
    (m u : String) (code : Nat)
    (h0 : op 0 = .err (.StatusError m code u))
    (h4 : 400 ≤ code) (h5 : code < 500) :
    retryWithBackoff op mr bd 0 = (.err (.StatusError m code u), 1, []) := by
  have h : is4xxClientError (op 0) = true := by
    rw [h0]
    simp [is4xxClientError]
    omega
  rw [retryWithBackoff_stop op mr bd 0 (Or.inr (Or.inr h)), h0]

/-- C3 (witness): a simulated 404 response with the default three retries
results in one transport invocation, an immediate StatusError failure and
an empty backoff-delay list. -/
theorem retryWithBackoff_no_retry_on_4xx_witness :
    retryWithBackoff op404 3 1000 0 =
      (.err (.StatusError "HTTP 404: Not Found" 404
        "https://www.amazon.co.jp/dp/B07ABCDEFG"), 1, []) :=
  retryWithBackoff_no_retry_on_4xx op404 3 1000 "HTTP 404: Not Found"
    "https://www.amazon.co.jp/dp/B07ABCDEFG" 404 rfl (by decide) (by decide)

/-- C4: the claim (and the source's own isRetryableError helper together
with its tests) classify ParseError and UnknownError as not retryable, so
the fetch should perform exactly one transport invocation; but the retry
loop never consults isRetryableError and only terminates early on 4xx
status errors, so a transport failing with ParseError under the default
maxRetries of three is invoked four times with three backoff waits. -/
theorem retryWithBackoff_retries_parse_error :
    isRetryableError (.ParseError "Parse error: bad body") = false
    ∧ retryWithBackoff opParseErr 3 1000 0 =
        (.err (.ParseError "Parse error: bad body"), 4, [1000, 2000, 4000]) := by
  refine ⟨by decide, ?_⟩
  rw [retryWithBackoff, retryWithBackoff, retryWithBackoff, retryWithBackoff]
  simp [opParseErr, Result.isOkB, is4xxClientError]

/-- C9: the batch scrape of ScraperService.scrapeMultipleProducts evaluates
Promise.all over the mapped scrapes, so with two URLs the scrape of the
second URL starts before the scrape of the first URL has completed, and no
inter-request delay event occurs — contradicting the required strictly
sequential, delayed processing (which the sibling runBatchScrapingPipeline
implementation does honour). -/
theorem scrapeMultipleProducts_not_sequential :
    scrapeMultipleProductsTrace
        ["https://www.amazon.co.jp/dp/B07ABCDEFG",
         "https://www.amazon.co.jp/dp/B08ZYXWVUT"] =
      [BatchEvent.scrapeStart 0, BatchEvent.scrapeStart 1,
       BatchEvent.scrapeFinish 0, BatchEvent.scrapeFinish 1]
    ∧ (scrapeMultipleProductsTrace
        ["https://www.amazon.co.jp/dp/B07ABCDEFG",
         "https://www.amazon.co.jp/dp/B08ZYXWVUT"]).indexOf
          (BatchEvent.scrapeStart 1) <
        (scrapeMultipleProductsTrace
          ["https://www.amazon.co.jp/dp/B07ABCDEFG",
           "https://www.amazon.co.jp/dp/B08ZYXWVUT"]).indexOf
            (BatchEvent.scrapeFinish 0)
    ∧ (∀ ms, BatchEvent.interDelay ms ∉ scrapeMultipleProductsTrace
        ["https://www.amazon.co.jp/dp/B07ABCDEFG",
         "https://www.amazon.co.jp/dp/B08ZYXWVUT"])
    ∧ runBatchScrapingPipelineTrace
        ["https://www.amazon.co.jp/dp/B07ABCDEFG",
         "https://www.amazon.co.jp/dp/B08ZYXWVUT"] =
      [BatchEvent.scrapeStart 0, BatchEvent.scrapeFinish 0,
       BatchEvent.interDelay 1000, BatchEvent.scrapeStart 1,
       BatchEvent.scrapeFinish 1, BatchEvent.interDelay 1000] := by
  refine ⟨by decide, by decide, ?_, by decide⟩
  intro ms h
  simp [scrapeMultipleProductsTrace] at h

/-- C8: for every raw URL string that fails URL validation, scrapeProduct
returns a UrlValidationError failure wrapping the validation message and
performs zero HTTP client invocations, whatever the fetch and parse
collaborators would do. -/
theorem scrapeProduct_invalid_url_no_fetch
    (get : String → Result HttpResponse HttpError)
    (parse : String → Result ParsedProductData ParsingError)
    (now : Int) (url : String) (e : ValidationError)
    (h : createAmazonURL url = .err e) :
    scrapeProduct get parse now url =
      (.err (.UrlValidationError ("Invalid Amazon URL: " ++ e.message) url),
       0) := by
  unfold scrapeProduct
  rw [h]

/-- C8 (witness): a non-HTTPS product URL is rejected without any HTTP
client invocation, for a fetch and parse pair that would succeed. -/
theorem scrapeProduct_invalid_url_no_fetch_witness :
    scrapeProduct getStub parseStub 1700000000
        "http://www.amazon.co.jp/dp/B07ABCDEFG" =
      (.err (.UrlValidationError
        "Invalid Amazon URL: URL must use HTTPS protocol"
        "http://www.amazon.co.jp/dp/B07ABCDEFG"), 0) :=
  scrapeProduct_invalid_url_no_fetch getStub parseStub 1700000000
    "http://www.amazon.co.jp/dp/B07ABCDEFG"
    (.InvalidAmazonURL "URL must use HTTPS protocol"
      "http://www.amazon.co.jp/dp/B07ABCDEFG")
    (by decide)

lemma string_length_pos_of_ne_empty (t : String) (h : t ≠ "") :
    t.length > 0 := by
  rcases t with ⟨l⟩
  cases l with
  | nil => exact absurd rfl h
  | cons c cs => simp [String.length]

/-- C2: createProduct succeeds exactly when all three value-object
factories succeed; every failure is the single aggregated
ProductCreationFailed whose detail list has length equal to the number of
invalid fields; and on success with no timestamp supplied the product's
timestamp is the current time. -/
theorem createProduct_aggregation (url title price : String)
    (ts : Option Int) (now : Int) :
    ((∃ pr, createProduct url title price ts now = .ok pr) ↔
      ((createAmazonURL url).isOkB = true
        ∧ (createProductTitle title).isOkB = true
        ∧ (createProductPrice price).isOkB = true))
    ∧ (∀ e, createProduct url title price ts now = .err e →
        ∃ m ds, e = .ProductCreationFailed m ds
          ∧ ds.length =
            ((if (createAmazonURL url).isOkB = true then 0 else 1)
              + (if (createProductTitle title).isOkB = true then 0 else 1)
              + (if (createProductPrice price).isOkB = true then 0 else 1)))
    ∧ (∀ pr, createProduct url title price none now = .ok pr →
        pr.timestamp = now) := by
  rcases h1 : createAmazonURL url with u | e1 <;>
    rcases h2 : createProductTitle title with t | e2 <;>
      rcases h3 : createProductPrice price with p | e3 <;>
        simp [createProduct, h1, h2, h3, errListOf, Result.isOkB] <;>
          exact ⟨_, _, ⟨rfl, rfl⟩, rfl⟩

/-- C2 (witness): the end-to-end example triple validates, producing a
product stamped with the supplied current time. -/
theorem createProduct_aggregation_witness :
    ∃ pr, createProduct "https://www.amazon.co.jp/dp/B07ABCDEFG"
      "Test Book" "￥1,000" none 1700000000 = .ok pr :=
  ((createProduct_aggregation "https://www.amazon.co.jp/dp/B07ABCDEFG"
      "Test Book" "￥1,000" none 1700000000).1).mpr
    ⟨by decide, by decide, by decide⟩

/-- C5 (counterexample): the claim says extraction queries the first
matching element of each selector; but the title path concatenates the
text of every element the selector matches. On a document with two
elements carrying the productTitle id (texts A and B) the source returns
the concatenation AB where the claimed first-element extraction returns
A. -/
theorem findTextBySelectors_concatenates :
    findTextBySelectors docTwoTitles TITLE_SELECTORS = some "AB"
    ∧ findTextBySelectorsSpec docTwoTitles TITLE_SELECTORS = some "A"
    ∧ findTextBySelectors docTwoTitles TITLE_SELECTORS ≠
        findTextBySelectorsSpec docTwoTitles TITLE_SELECTORS := by
  refine ⟨by decide, by decide, by decide⟩

lemma findTextBySelectors_all_empty (doc : String → List String) :
    ∀ (sels : List String),
      (∀ s2 ∈ sels, jsTrim (String.join (doc s2)) = "") →
      findTextBySelectors doc sels = none := by
  intro sels
  induction sels with
  | nil => intro _; simp [findTextBySelectors]
  | cons a l ih =>
    intro hall
    have ha : jsTrim (String.join (doc a)) = "" := hall a (by simp)
    have ih' := ih (fun s2 hs2 => hall s2 (by simp [hs2]))
    simpa [findTextBySelectors, ha] using ih'

/-- C5 (amended): selectors are tried in priority order; the title path
takes the trimmed concatenated text of all elements matching a selector
(the price path takes the trimmed text of the first matching element) and
the first accepted non-empty result wins, so a higher-priority title
selector's text is returned even when a lower-priority selector also
matches; when no selector yields an accepted value the field is absent. -/
theorem findTextBySelectors_priority (doc : String → List String)
    (l1 l2 : List String) (s t : String) :
    ((∀ s2 ∈ l1, jsTrim (String.join (doc s2)) = "") →
      jsTrim (String.join (doc s)) = t → t ≠ "" →
      findTextBySelectors doc (l1 ++ s :: l2) = some t)
    ∧ ((∀ s2 ∈ l1 ++ s :: l2, jsTrim (String.join (doc s2)) = "") →
      findTextBySelectors doc (l1 ++ s :: l2) = none)
    ∧ ((∀ s2 ∈ l1,
        isValidPriceText (jsTrim ((doc s2).head?.getD "")) = false) →
      isValidPriceText (jsTrim ((doc s).head?.getD "")) = true →
      findPriceBySelectors doc (l1 ++ s :: l2) =
        some (jsTrim ((doc s).head?.getD ""))) := by
  refine ⟨?_, ?_, ?_⟩
  · intro hskip hhit hne
    induction l1 with
    | nil =>
      have hpos := string_length_pos_of_ne_empty t hne
      simp [findTextBySelectors, hhit, hpos]
    | cons a l ih =>
      have ha : jsTrim (String.join (doc a)) = "" := hskip a (by simp)
      have ih' := ih (fun s2 hs2 => hskip s2 (by simp [hs2]))
      simpa [findTextBySelectors, ha] using ih'
  · intro hall
    exact findTextBySelectors_all_empty doc (l1 ++ s :: l2) hall
  · intro hskip hhit
    induction l1 with
    | nil => simp [findPriceBySelectors, hhit]
    | cons a l ih =>
      have ha := hskip a (by simp)
      have ih' := ih (fun s2 hs2 => hskip s2 (by simp [hs2]))
      simpa [findPriceBySelectors, ha] using ih'

/-- C5 (witness): on a document whose only title match is the
lowest-priority class selector, extraction skips the four higher-priority
selectors and returns that selector's text. -/
theorem findTextBySelectors_priority_witness :
    findTextBySelectors docLowTitle TITLE_SELECTORS = some "Low Title" := by
  have h := (findTextBySelectors_priority docLowTitle
    ["#productTitle", "span#productTitle", "h1.a-size-large", "h1 span"]
    [] ".product-title" "Low Title").1 (by decide) (by decide) (by decide)
  simpa [TITLE_SELECTORS] using h

/-! ## Lemmas about the price pattern matcher -/

lemma flatMap_eq_nil_iff' {α β : Type} (l : List α) (f : α → List β) :
    l.flatMap f = [] ↔ ∀ a ∈ l, f a = [] := by
  induction l with
  | nil => simp
  | cons x xs ih => simp [List.flatMap_cons, ih]

lemma starGroupRemFuel_self_mem (fuel : Nat) (cs : List Char) :
    cs ∈ starGroupRemFuel fuel cs := by
  cases fuel with
  | zero => simp [starGroupRemFuel]
  | succ n => simp [starGroupRemFuel]

lemma starGroupRem_ne_nil (cs : List Char) : starGroupRem cs ≠ [] := by
  intro h
  have := starGroupRemFuel_self_mem cs.length cs
  rw [starGroupRem] at h
  rw [h] at this
  exact absurd this (List.not_mem_nil cs)

lemma optPriceSuffixRem_ne_nil (cs : List Char) :
    optPriceSuffixRem cs ≠ [] := by
  cases cs <;> simp [optPriceSuffixRem]

/-- Whether the head of the character list is an ASCII digit. -/
lemma digitRem_eq_nil_iff (cs : List Char) :
    digitRem cs = [] ↔ (∀ c ∈ cs.head?, c.isDigit = false) := by
  cases cs with
  | nil => simp [digitRem]
  | cons c rest =>
    by_cases h : c.isDigit <;> simp [digitRem, h]

lemma digits13Rem_eq_nil_iff (cs : List Char) :
    digits13Rem cs = [] ↔ digitRem cs = [] := by
  constructor
  · intro h
    rcases List.append_eq_nil.mp h with ⟨h1, _⟩
    exact List.append_eq_nil.mp h1 |>.1
  · intro h
    simp [digits13Rem, h]

lemma priceRemainders_eq_nil_iff (cs : List Char) :
    priceRemainders cs = [] ↔ ∀ a ∈ optYenRem cs, digitRem a = [] := by
  constructor
  · intro h a ha
    by_contra hne
    have h13 : digits13Rem a ≠ [] := by
      rw [Ne, digits13Rem_eq_nil_iff]
      exact hne
    rcases List.exists_mem_of_ne_nil _ h13 with ⟨b, hb⟩
    have hbb : b ∈ starGroupRem b := starGroupRemFuel_self_mem _ b
    rcases List.exists_mem_of_ne_nil _ (optPriceSuffixRem_ne_nil b)
      with ⟨u, hu⟩
    have hmem : u ∈ priceRemainders cs := by
      unfold priceRemainders
      rw [List.mem_flatMap]
      refine ⟨b, ?_, hu⟩
      rw [List.mem_flatMap]
      refine ⟨b, ?_, hbb⟩
      rw [List.mem_flatMap]
      exact ⟨a, ha, hb⟩
    rw [h] at hmem
    exact absurd hmem (List.not_mem_nil u)
  · intro h
    have hX : (optYenRem cs).flatMap digits13Rem = [] := by
      rw [flatMap_eq_nil_iff']
      intro a ha
      exact digits13Rem_eq_nil_iff a |>.mpr (h a ha)
    unfold priceRemainders
    rw [hX]
    simp

lemma priceMatchAt_true_iff (cs : List Char) :
    priceMatchAt cs = true ↔ priceRemainders cs ≠ [] := by
  unfold priceMatchAt
  cases h : priceRemainders cs <;> simp [h]

lemma digitRem_cons_ne_nil (c : Char) (rest : List Char) :
    digitRem (c :: rest) ≠ [] ↔ c.isDigit = true := by
  by_cases hd : c.isDigit <;> simp [digitRem, hd]

lemma any_of_digitRem_ne_nil (rest : List Char)
    (h : digitRem rest ≠ []) : rest.any Char.isDigit = true := by
  cases rest with
  | nil => simp [digitRem] at h
  | cons d t =>
    rw [digitRem_cons_ne_nil] at h
    simp [List.any_cons, h]

lemma priceMatchAt_cons (c : Char) (rest : List Char) :
    priceMatchAt (c :: rest) = true ↔
      (c.isDigit = true ∨ (isYenChar c = true ∧ digitRem rest ≠ [])) := by
  rw [priceMatchAt_true_iff, Ne, priceRemainders_eq_nil_iff]
  push_neg
  constructor
  · rintro ⟨a, ha, hne⟩
    by_cases hy : isYenChar c = true
    · simp [optYenRem, hy] at ha
      rcases ha with rfl | rfl
      · exact Or.inl ((digitRem_cons_ne_nil c rest).mp hne)
      · exact Or.inr ⟨hy, hne⟩
    · simp [optYenRem, hy] at ha
      subst ha
      exact Or.inl ((digitRem_cons_ne_nil c rest).mp hne)
  · rintro (hd | ⟨hy, hne⟩)
    · exact ⟨c :: rest, by simp [optYenRem],
        (digitRem_cons_ne_nil c rest).mpr hd⟩
    · exact ⟨rest, by simp [optYenRem, hy], hne⟩

lemma pricePatternTest_eq_any (cs : List Char) :
    pricePatternTest cs = cs.any Char.isDigit := by
  induction cs with
  | nil => decide
  | cons c rest ih =>
    rw [pricePatternTest, ih, List.any_cons]
    by_cases hr : rest.any Char.isDigit = true
    · rw [hr]
      simp
    · have hrf : rest.any Char.isDigit = false := by
        revert hr; cases rest.any Char.isDigit <;> simp
      rw [hrf]
      by_cases hd : c.isDigit = true
      · rw [hd, (priceMatchAt_cons c rest).mpr (Or.inl hd)]
      · have hm : priceMatchAt (c :: rest) = false := by
          rw [← Bool.not_eq_true, priceMatchAt_cons]
          rintro (h | ⟨hy, hne⟩)
          · exact hd h
          · rw [any_of_digitRem_ne_nil rest hne] at hrf
            cases hrf
        have hdf : c.isDigit = false := by
          revert hd; cases c.isDigit <;> simp
        rw [hm, hdf]

/-- C10: any input whose trimmed form contains an ASCII digit and is at
most 50 characters long is accepted by createProductPrice, which returns
the trimmed string: the numeric-format regex is applied as an unanchored
substring search, and a single digit already yields a match. -/
theorem createProductPrice_accepts_digit (s : String)
    (hd : hasDigitCL (jsTrim s).data = true)
    (hlen : (jsTrim s).length ≤ 50) :
    createProductPrice s = .ok (jsTrim s) := by
  have hne' : (jsTrim s).data ≠ [] := by
    intro h
    rw [hasDigitCL, h] at hd
    simp at hd
  have hne : jsTrim s ≠ "" := by
    intro h
    rw [h] at hne'
    exact hne' rfl
  have hpat : pricePatternTest (jsTrim s).data = true := by
    rw [pricePatternTest_eq_any]
    exact hd
  have hlen' : ¬ ((jsTrim s).length > 50) := by omega
  simp only [createProductPrice]
  rw [if_neg hne, if_neg (not_not_intro (Or.inr hd)),
    if_neg (not_not_intro hpat), if_neg hlen']

/-- C10 (witness): the all-letters-plus-one-digit input from the claim is
accepted as a valid price. -/
theorem createProductPrice_accepts_digit_witness :
    createProductPrice "abc1def" = .ok "abc1def" := by
  have h := createProductPrice_accepts_digit "abc1def" (by decide) (by decide)
  rw [h]
  decide

/-- C6 (counterexample): the plain four-digit input 1000 is non-empty
after trimming, contains a digit and is within the length bound, and does
not match the claimed pattern read as a whole-string match (three leading
digits would have to be followed by comma groups); yet createProductPrice
accepts it, because the source applies the regex as an unanchored
substring search, so the claimed MalformedPrice failure does not occur. -/
theorem createProductPrice_unanchored :
    createProductPrice "1000" = .ok "1000"
    ∧ pricePatternFull "1000".data = false
    ∧ hasDigitCL (jsTrim "1000").data = true
    ∧ ("1000" : String).length ≤ 50 := by
  refine ⟨by decide, by decide, by decide, by decide⟩

/-- C6 (amended): for every input whose trimmed form is non-empty,
contains a yen symbol or a digit, and is at most 50 characters long,
createProductPrice returns the MalformedPrice failure exactly when the
price pattern, applied as the source's unanchored substring search, finds
no match in the trimmed input (equivalently, for such inputs, exactly when
the trimmed input contains no ASCII digit). -/
theorem createProductPrice_malformed_iff (s : String)
    (h1 : jsTrim s ≠ "")
    (h2 : (strIncludes (jsTrim s) "￥" || strIncludes (jsTrim s) "¥") = true
      ∨ hasDigitCL (jsTrim s).data = true)
    (h3 : (jsTrim s).length ≤ 50) :
    createProductPrice s =
        .err (.InvalidProductPrice "Product price format is invalid" s)
      ↔ pricePatternTest (jsTrim s).data = false := by
  by_cases hp : pricePatternTest (jsTrim s).data = true
  · have hlen' : ¬ ((jsTrim s).length > 50) := by omega
    have hok : createProductPrice s = .ok (jsTrim s) := by
      simp only [createProductPrice]
      rw [if_neg h1, if_neg (not_not_intro h2), if_neg (not_not_intro hp),
        if_neg hlen']
    rw [hok]
    simp [hp]
  · have hpf : pricePatternTest (jsTrim s).data = false := by
      revert hp; cases pricePatternTest (jsTrim s).data <;> simp
    have herr : createProductPrice s =
        .err (.InvalidProductPrice "Product price format is invalid" s) := by
      simp only [createProductPrice]
      rw [if_neg h1, if_neg (not_not_intro h2), if_pos hp]
    rw [herr]
    simp [hpf]

/-- C6 (witness): a lone yen sign carries a currency indicator but no
digit, so the unanchored pattern finds no match and the MalformedPrice
failure is returned. -/
theorem createProductPrice_malformed_iff_witness :
    createProductPrice "￥" =
      .err (.InvalidProductPrice "Product price format is invalid" "￥") :=
  (createProductPrice_malformed_iff "￥" (by decide) (by decide)
    (by decide)).mpr (by decide)

/-! ## Lemmas about trimming and whitespace normalization -/

lemma dropTrailWS_eq_rdropWhile (cs : List Char) :
    dropTrailWS cs = cs.rdropWhile Char.isWhitespace := rfl

lemma dropWhile_length_le {p : Char → Bool} (l : List Char) :
    (l.dropWhile p).length ≤ l.length := by
  induction l with
  | nil => simp
  | cons c cs ih =>
    rw [List.dropWhile_cons]
    by_cases hc : p c
    · rw [if_pos hc]
      simp only [List.length_cons]
      omega
    · rw [if_neg hc]

lemma dropWhile_eq_self_of_append {p : Char → Bool} {l1 t : List Char}
    (h : (l1 ++ t).dropWhile p = l1 ++ t) : l1.dropWhile p = l1 := by
  cases l1 with
  | nil => rfl
  | cons c cs =>
    by_cases hc : p c
    · exfalso
      rw [List.cons_append, List.dropWhile_cons, if_pos hc] at h
      have hle := dropWhile_length_le (p := p) (cs ++ t)
      rw [h] at hle
      simp at hle
    · rw [List.dropWhile_cons, if_neg hc]

lemma trimCL_idem (cs : List Char) : trimCL (trimCL cs) = trimCL cs := by
  unfold trimCL dropLeadWS
  rw [dropTrailWS_eq_rdropWhile, dropTrailWS_eq_rdropWhile]
  have h1 : (cs.dropWhile Char.isWhitespace).dropWhile Char.isWhitespace
      = cs.dropWhile Char.isWhitespace :=
    List.dropWhile_idempotent Char.isWhitespace cs
  rcases List.rdropWhile_prefix (l := cs.dropWhile Char.isWhitespace)
      (p := Char.isWhitespace) with ⟨t, ht⟩
  have h2 : ((cs.dropWhile Char.isWhitespace).rdropWhile
      Char.isWhitespace).dropWhile Char.isWhitespace
      = (cs.dropWhile Char.isWhitespace).rdropWhile Char.isWhitespace := by
    apply dropWhile_eq_self_of_append (t := t)
    rw [ht]
    exact h1
  rw [h2, List.rdropWhile_idempotent]

lemma jsTrim_idem (s : String) : jsTrim (jsTrim s) = jsTrim s := by
  unfold jsTrim
  exact congrArg String.mk (trimCL_idem s.data)

lemma headNotP_collapseAux_true (rest : List Char) :
    headNotP Char.isWhitespace (collapseAux true rest) = true := by
  induction rest with
  | nil => rfl
  | cons c r ih =>
    by_cases hc : c.isWhitespace
    · simpa [collapseAux, hc] using ih
    · simp [collapseAux, hc, headNotP]

lemma canonWS_collapseAux (cs : List Char) :
    ∀ b, canonWS (collapseAux b cs) = true := by
  induction cs with
  | nil => intro b; rfl
  | cons c rest ih =>
    intro b
    by_cases hc : c.isWhitespace
    · cases b with
      | true => simpa [collapseAux, hc] using ih true
      | false =>
        simp [collapseAux, hc, canonWS, headNotP_collapseAux_true rest]
        exact ih true
    · simp [collapseAux, hc, canonWS]
      exact ih false

lemma canonWS_tail {c : Char} {rest : List Char}
    (h : canonWS (c :: rest) = true) : canonWS rest = true := by
  simp [canonWS] at h
  exact h.2

lemma canonWS_head {c : Char} {rest : List Char}
    (h : canonWS (c :: rest) = true) (hc : c.isWhitespace = true) :
    c = ' ' ∧ headNotP Char.isWhitespace rest = true := by
  simp [canonWS, hc] at h
  exact ⟨h.1.1, h.1.2⟩

lemma collapseAux_id (cs : List Char) (h : canonWS cs = true) :
    collapseAux false cs = cs
      ∧ (headNotP Char.isWhitespace cs = true → collapseAux true cs = cs) := by
  induction cs with
  | nil => exact ⟨rfl, fun _ => rfl⟩
  | cons c rest ih =>
    have hrest := canonWS_tail h
    have ihr := ih hrest
    by_cases hc : c.isWhitespace
    · rcases canonWS_head h hc with ⟨hsp, hhn⟩
      constructor
      · rw [collapseAux]
        rw [if_pos hc, if_neg (by simp)]
        rw [ihr.2 hhn, hsp]
      · intro hhead
        rw [headNotP] at hhead
        rw [hc] at hhead
        simp at hhead
    · constructor
      · rw [collapseAux, if_neg hc, ihr.1]
      · intro _
        rw [collapseAux, if_neg hc, ihr.1]

lemma canonWS_append_left {l1 t : List Char}
    (h : canonWS (l1 ++ t) = true) : canonWS l1 = true := by
  induction l1 with
  | nil => rfl
  | cons c cs ih =>
    rw [List.cons_append] at h
    have hcs := ih (canonWS_tail h)
    simp only [canonWS] at h ⊢
    simp only [Bool.and_eq_true, Bool.or_eq_true] at h ⊢
    refine ⟨?_, hcs⟩
    rcases h.1 with hnw | hsp
    · exact Or.inl hnw
    · refine Or.inr ⟨hsp.1, ?_⟩
      cases cs with
      | nil => rfl
      | cons d ds => simpa [headNotP] using hsp.2

lemma canonWS_dropWhile {p : Char → Bool} {l : List Char}
    (h : canonWS l = true) : canonWS (l.dropWhile p) = true := by
  induction l with
  | nil => exact h
  | cons c cs ih =>
    by_cases hc : p c
    · rw [List.dropWhile_cons, if_pos hc]
      exact ih (canonWS_tail h)
    · rwa [List.dropWhile_cons, if_neg hc]

lemma canonWS_trimCL {l : List Char} (h : canonWS l = true) :
    canonWS (trimCL l) = true := by
  unfold trimCL dropLeadWS
  rw [dropTrailWS_eq_rdropWhile]
  rcases List.rdropWhile_prefix (l := l.dropWhile Char.isWhitespace)
      (p := Char.isWhitespace) with ⟨t, ht⟩
  have hdw : canonWS (l.dropWhile Char.isWhitespace) = true :=
    canonWS_dropWhile h
  rw [← ht] at hdw
  exact canonWS_append_left hdw

lemma normalizeWS_idem (s : String) :
    normalizeWS (normalizeWS s) = normalizeWS s := by
  unfold normalizeWS
  have hcanon : canonWS (trimCL (collapseAux false s.data)) = true :=
    canonWS_trimCL (canonWS_collapseAux s.data false)
  have hid : collapseAux false (trimCL (collapseAux false s.data))
      = trimCL (collapseAux false s.data) := (collapseAux_id _ hcanon).1
  have : (String.mk (trimCL (collapseAux false s.data))).data
      = trimCL (collapseAux false s.data) := rfl
  rw [this, hid, trimCL_idem]

/-- C7: validation is idempotent: feeding the underlying string of any
accepted URL, title or price value back into the same factory yields
Success with the same underlying string. -/
theorem validation_idempotent :
    (∀ s v, createAmazonURL s = .ok v → createAmazonURL v = .ok v)
    ∧ (∀ s v, createProductTitle s = .ok v → createProductTitle v = .ok v)
    ∧ (∀ s v, createProductPrice s = .ok v → createProductPrice v = .ok v) := by
  refine ⟨?_, ?_, ?_⟩
  · intro s v h
    by_cases h1 : jsTrim s = ""
    · simp [createAmazonURL, h1] at h
    cases hp : parseURL (jsTrim s) with
    | none => simp [createAmazonURL, h1, hp] at h
    | some url =>
      by_cases h2 : url.protocol = "https:"
      case neg => simp [createAmazonURL, h1, hp, h2] at h
      by_cases h3 : strIncludes url.hostname "amazon.co.jp" = true
      case neg => simp [createAmazonURL, h1, hp, h2, h3] at h
      by_cases h4 : strIncludes url.pathname "/dp/" = true
          ∨ strIncludes url.pathname "/gp/product/" = true
      case neg => simp [createAmazonURL, h1, hp, h2, h3, h4] at h
      simp [createAmazonURL, h1, hp, h2, h3, h4] at h
      subst h
      simp [createAmazonURL, jsTrim_idem, h1, hp, h2, h3, h4]
  · intro s v h
    by_cases h1 : normalizeWS s = ""
    · simp [createProductTitle, h1] at h
    by_cases h2 : (normalizeWS s).length < 3
    · simp [createProductTitle, h1, h2] at h
    by_cases h3 : (normalizeWS s).length > 500
    · simp [createProductTitle, h1, h2, h3] at h
    by_cases h4 : hasUnsafeContent (normalizeWS s) = true
    · simp [createProductTitle, h1, h2, h3, h4] at h
    simp [createProductTitle, h1, h2, h3, h4] at h
    subst h
    simp [createProductTitle, normalizeWS_idem, h1, h2, h3, h4]
  · intro s v h
    simp only [createProductPrice] at h
    by_cases h1 : jsTrim s = ""
    · rw [if_pos h1] at h
      exact Result.noConfusion h
    rw [if_neg h1] at h
    by_cases h2 : (strIncludes (jsTrim s) "￥" || strIncludes (jsTrim s) "¥")
        = true ∨ hasDigitCL (jsTrim s).data = true
    case neg =>
      rw [if_pos h2] at h
      exact Result.noConfusion h
    rw [if_neg (not_not_intro h2)] at h
    by_cases h3 : pricePatternTest (jsTrim s).data = true
    case neg =>
      rw [if_pos h3] at h
      exact Result.noConfusion h
    rw [if_neg (not_not_intro h3)] at h
    by_cases h4 : (jsTrim s).length > 50
    · rw [if_pos h4] at h
      exact Result.noConfusion h
    rw [if_neg h4] at h
    have hv : jsTrim s = v := by injection h
    subst hv
    simp only [createProductPrice]
    rw [jsTrim_idem]
    rw [if_neg h1, if_neg (not_not_intro h2), if_neg (not_not_intro h3),
      if_neg h4]

/-- C7 (witness): re-validating the accepted forms of a product URL (with
surrounding whitespace), a whitespace-ridden title and a padded price each
succeeds again with the same underlying string. -/
theorem validation_idempotent_witness :
    createAmazonURL "https://www.amazon.co.jp/dp/B07ABCDEFG" =
      .ok "https://www.amazon.co.jp/dp/B07ABCDEFG"
    ∧ createProductTitle "Test Book" = .ok "Test Book"
    ∧ createProductPrice "￥1,000" = .ok "￥1,000" :=
  ⟨validation_idempotent.1 "  https://www.amazon.co.jp/dp/B07ABCDEFG  "
      "https://www.amazon.co.jp/dp/B07ABCDEFG" (by decide),
   validation_idempotent.2.1 "  Test   Book  " "Test Book" (by decide),
   validation_idempotent.2.2 "  ￥1,000  " "￥1,000" (by decide)⟩
